import Mathlib

/-!
Verification development for the profit-and-loss extraction engine
(`analyze_profit_loss.py` and `src/core/analyzer.py`, plus the ratio
collaborator `src/core/ratios.py`).

Modelling conventions:
* A spreadsheet is a `Grid`: a list of rows, each a list of `Cell`s.  A cell
  is empty (pandas `NaN`), holds text, or holds a number.  Numbers are
  modelled as exact rationals `Q` (Python floats are idealized as exact
  decimal values; float rounding and the float `NaN` produced by
  `float(nan)` are outside the numeric model -- an empty cell is treated as
  carrying no usable numeric value).
* Text is modelled as `List Char`.  Python string operations (`lower`,
  `strip`, `in`, `startswith`, `' '.join`, `str.title`, `str.isdigit`) are
  implemented over character lists.  `float(...)` on strings is modelled for
  the decimal forms `[+-]?digits[.digits]` / `[+-]?.digits` (exponents,
  underscores, `inf`/`nan` spellings are not exercised by the analysed
  code paths).  `str(...)` of a numeric cell is modelled as the decimal
  rendering of a pandas float64 value (`100.0` style for integral values).
* Row indices are `Int`, matching Python integers (the boundary scan can
  store `i - 1 = -1`).
* Each Python function of the engine is translated to a Lean definition of
  the same name (up to Lean naming constraints); loops become structural
  recursions or folds, early `break`/`continue` become the corresponding
  recursion shapes, and try/except around `float(...)` becomes `Option`.
-/

/-! ## Exact rational arithmetic (kernel-computable model of Python numbers) -/

/-- Fuel-driven Euclidean algorithm (structural recursion so the kernel can
evaluate it). -/
def gcdF : Nat → Nat → Nat → Nat
  | 0, _, b => b
  | _+1, 0, b => b
  | f+1, a+1, b => gcdF f (b % (a+1)) (a+1)

/-- Greatest common divisor via `gcdF` (fuel `x` suffices because Euclidean
remainders strictly decrease). -/
def ngcd (x y : Nat) : Nat := gcdF x x y

/-- Exact rational number: numerator and positive denominator, kept in
lowest terms by the smart constructor `mkQ`. -/
structure Q where
  num : Int
  den : Nat
deriving DecidableEq, Repr

/-- Normalizing constructor: divides out the gcd of numerator and
denominator. -/
def mkQ (n : Int) (d : Nat) : Q :=
  let g := ngcd d n.natAbs
  if g = 0 then ⟨n, d⟩ else ⟨n / g, d / g⟩

def qI (n : Int) : Q := ⟨n, 1⟩

def qAdd (a b : Q) : Q := mkQ (a.num * b.den + b.num * a.den) (a.den * b.den)

def qSub (a b : Q) : Q := mkQ (a.num * b.den - b.num * a.den) (a.den * b.den)

def qMul (a b : Q) : Q := mkQ (a.num * b.num) (a.den * b.den)

/-- Division `a / b`; sign is moved to the numerator so the denominator
stays positive.  Callers in the modelled code guard against `b = 0`. -/
def qDiv (a b : Q) : Q :=
  let n := a.num * (b.den : Int)
  let d := (a.den : Int) * b.num
  if d < 0 then mkQ (-n) (-d).toNat else mkQ n d.toNat

def qLt (a b : Q) : Bool := a.num * (b.den : Int) < b.num * (a.den : Int)

def qAbs (a : Q) : Q := ⟨|a.num|, a.den⟩

/-- Python `max(a, b)`: returns `b` only when it is strictly larger. -/
def qMax (a b : Q) : Q := if qLt a b then b else a

/-- Python `sum(...)` over rational values: left fold from `0`. -/
def qSum (l : List Q) : Q := l.foldl qAdd (qI 0)

/-! ## Text model (Python strings as character lists) -/

/-- Convert a Lean string literal to the character-list text model. -/
def chars (s : String) : List Char := s.toList

/-- Python `str.lower()` for the ASCII range used by the engine. -/
def lowChar (c : Char) : Char :=
  if 'A' ≤ c ∧ c ≤ 'Z' then Char.ofNat (c.toNat + 32) else c

def lowerTx (s : List Char) : List Char := s.map lowChar

def isSpaceCh (c : Char) : Bool :=
  c = ' ' ∨ c = '\t' ∨ c = '\n' ∨ c = '\r'

/-- Python `str.strip()` (whitespace at both ends). -/
def pyStrip (s : List Char) : List Char :=
  ((s.dropWhile isSpaceCh).reverse.dropWhile isSpaceCh).reverse

/-- Python `needle in hay` substring containment. -/
def containsTx (hay needle : List Char) : Bool :=
  hay.tails.any (fun t => needle.isPrefixOf t)

/-- Python `hay.startswith(tuple)`. -/
def startsWithAny (hay : List Char) (needles : List (List Char)) : Bool :=
  needles.any (fun n => n.isPrefixOf hay)

/-- Python `' '.join(parts)`. -/
def joinSpace (parts : List (List Char)) : List Char :=
  List.intercalate [' '] parts

/-- Decimal digit character for `d < 10`. -/
def digitChar (d : Nat) : Char := Char.ofNat (48 + d)

def natStrAux : Nat → Nat → List Char
  | 0, _ => []
  | f+1, n => if n < 10 then [digitChar n] else natStrAux f (n / 10) ++ [digitChar (n % 10)]

/-- Decimal rendering of a natural number. -/
def natStr (n : Nat) : List Char := natStrAux (n + 1) n

/-- Decimal rendering of an integer. -/
def intStr (n : Int) : List Char :=
  if n < 0 then '-' :: natStr (-n).toNat else natStr n.toNat

/-- Python `str.title()`: uppercase the first letter of each alphabetic run,
lowercase the rest. -/
def pyTitleAux : Bool → List Char → List Char
  | _, [] => []
  | prevAlpha, c :: rest =>
    if c.isAlpha then
      (if prevAlpha then lowChar c else c.toUpper) :: pyTitleAux true rest
    else
      c :: pyTitleAux false rest

def pyTitle (s : List Char) : List Char := pyTitleAux false s

/-- Python `s.replace(c, '', 1)` for a single-character pattern: removes the
first occurrence of `c`. -/
def removeFirst (c : Char) : List Char → List Char
  | [] => []
  | x :: xs => if x = c then xs else x :: removeFirst c xs

/-- Python `str.isdigit()` (ASCII digits; true only for non-empty all-digit
strings). -/
def pyIsDigit (s : List Char) : Bool := s ≠ [] && s.all Char.isDigit

/-- The numeric-text test `s.replace('.', '', 1).replace('-', '', 1).isdigit()`
used when scanning cells right-to-left for values. -/
def pyDigitLike (s : List Char) : Bool :=
  pyIsDigit (removeFirst '-' (removeFirst '.' s))

/-- The variant `s.replace('.', '', 1).isdigit()` used on the gross-profit
row (no `'-'` removal). -/
def pyDigitLikeNoMinus (s : List Char) : Bool :=
  pyIsDigit (removeFirst '.' s)

def digitsToNat (l : List Char) : Nat :=
  l.foldl (fun n c => n * 10 + (c.toNat - 48)) 0

/-- Python `float(s)` on a string, for the decimal forms the engine can
meet: optional sign, then `digits`, `digits.digits`, `digits.` or
`.digits`, with surrounding whitespace stripped.  Returns `none` when the
conversion would raise `ValueError`. -/
def pyFloat (s : List Char) : Option Q :=
  let l := pyStrip s
  let (neg, l) : Bool × List Char :=
    match l with
    | '-' :: r => (true, r)
    | '+' :: r => (false, r)
    | _ => (false, l)
  let ip := l.takeWhile Char.isDigit
  let rest := l.drop ip.length
  let sgn : Int := if neg then -1 else 1
  match rest with
  | [] => if ip = [] then none else some (mkQ (sgn * (digitsToNat ip : Int)) 1)
  | '.' :: fr =>
    if fr.all Char.isDigit ∧ (ip ≠ [] ∨ fr ≠ []) then
      some (mkQ (sgn * ((digitsToNat ip * 10 ^ fr.length + digitsToNat fr : Nat) : Int))
        (10 ^ fr.length))
    else none
  | _ => none

/-! ## Grid model (the pandas dataframe read with `header=None`) -/

/-- One spreadsheet cell: empty (pandas `NaN`), text, or a float64 number. -/
inductive Cell where
  | empty : Cell
  | txt : List Char → Cell
  | num : Q → Cell
deriving DecidableEq, Repr

/-- A dataframe: rows of cells, row `0` first. -/
abbrev Grid := List (List Cell)

/-- Number of dataframe columns (`len(df.columns)`); rows of a pandas frame
all share this width, short model rows are padded with `NaN`. -/
def ncols (g : Grid) : Nat := (g.map List.length).foldr max 0

/-- Python `str(x)` on a cell value.  A float64 prints as `-?digits.digits`;
the engine only ever renders integral values, shown pandas-style as
`100.0`.  `str(nan)` is `"nan"`, but every consumer filters on
`pd.notna` first. -/
def pyStr : Cell → List Char
  | Cell.empty => chars "nan"
  | Cell.txt s => s
  | Cell.num q =>
    if q.den = 1 then intStr q.num ++ chars ".0"
    else intStr q.num ++ '/' :: natStr q.den

/-- Python `pd.notna` on a cell. -/
def notna : Cell → Bool
  | Cell.empty => false
  | _ => true

/-- Row `i` of the dataframe (`df.iloc[i]` for `0 ≤ i < len(df)`), padded
to the frame width. -/
def rowN (g : Grid) (i : Nat) : List Cell :=
  let r := (g.get? i).getD []
  r ++ List.replicate (ncols g - r.length) Cell.empty

/-- Row access with a Python integer index (`df.iloc[i]`; negative indices
wrap from the end as in pandas). -/
def rowI (g : Grid) (i : Int) : List Cell :=
  if i < 0 then rowN g ((g.length : Int) + i).toNat else rowN g i.toNat

/-- Cell `row[c]` (`row.iloc[c]`). -/
def getCell (row : List Cell) (c : Nat) : Cell := (row.get? c).getD Cell.empty

/-- Python `' '.join(str(x) for x in row if pd.notna(x))`. -/
def rowJoin (row : List Cell) : List Char :=
  joinSpace ((row.filter notna).map pyStr)

/-- Joined text of row `i`. -/
def rowTx (g : Grid) (i : Nat) : List Char := rowJoin (rowN g i)

/-- Joined text of row `i`, lower-cased. -/
def rowTxL (g : Grid) (i : Nat) : List Char := lowerTx (rowTx g i)

/-- Python `float(x)` on a cell under try/except: numbers convert exactly,
numeric-looking strings parse, anything else (including an empty cell,
whose float `NaN` carries no usable value) yields `none`. -/
def tryFloat : Cell → Option Q
  | Cell.empty => none
  | Cell.txt s => pyFloat s
  | Cell.num q => some q

/-- Python `range(a, b)` over integers, as the list `[a, a+1, ..., b-1]`. -/
def intRange (a b : Int) : List Int :=
  (List.range (b - a).toNat).map (fun k => a + (k : Int))

/-- Python slice row indices `df.iloc[a:b]` (clamped like list slicing). -/
def pySliceIdx (len : Nat) (a b : Int) : List Nat :=
  let norm : Int → Nat := fun x =>
    if x < 0 then ((len : Int) + x).toNat else min x.toNat len
  let a' := norm a
  let b' := norm b
  (List.range (b' - a')).map (fun k => a' + k)

/-! ## Metadata extraction (`extract_company_and_period`, `identify_basis_type`,
identical in `analyze_profit_loss.py` and `src/core/analyzer.py`) -/

def months : List (List Char) :=
  [chars "january", chars "february", chars "march", chars "april",
   chars "may", chars "june", chars "july", chars "august",
   chars "september", chars "october", chars "november", chars "december"]

/-- Regex `\w` character class (ASCII): letters, digits, underscore. -/
def isWordCh (c : Char) : Bool := c.isAlphanum ∨ c = '_'

/-- Regex `[\w\s,]` character class. -/
def isWSC (c : Char) : Bool := isWordCh c ∨ isSpaceCh c ∨ c = ','

/-- Four decimal digits at the head of the list (`\d{4}`). -/
def fourDigits (l : List Char) : Bool :=
  (l.take 4).length = 4 && (l.take 4).all Char.isDigit

/-- Match `(month)\s+\d{4}` at the current position, returning the matched
text (greedy `\s+`). -/
def matchMonthYear (cs : List Char) : Option (List Char) :=
  months.findSome? (fun m =>
    if m.isPrefixOf cs then
      let r := cs.drop m.length
      let sp := r.takeWhile isSpaceCh
      let d := (r.drop sp.length).take 4
      if sp.length ≥ 1 ∧ d.length = 4 ∧ d.all Char.isDigit then
        some (m ++ sp ++ d)
      else none
    else none)

/-- Match `[\w\s,]+\d{4}` at the current position, returning the matched
text; the greedy quantifier takes the largest `k ≥ 1` such that the first
`k` characters are `[\w\s,]` and the next four are digits. -/
def matchFillYear (cs : List Char) : Option (List Char) :=
  let kmax := min (cs.takeWhile isWSC).length (cs.length - 4)
  ((List.range kmax).map (fun j => kmax - j)).findSome? (fun k =>
    if k ≥ 1 ∧ fourDigits (cs.drop k) then some (cs.take (k + 4)) else none)

/-- Match a literal followed by `\s+`, returning consumed text and rest. -/
def litSp (lit : List Char) (cs : List Char) : Option (List Char × List Char) :=
  if lit.isPrefixOf cs then
    let r := cs.drop lit.length
    let sp := r.takeWhile isSpaceCh
    if sp.length ≥ 1 then some (lit ++ sp, r.drop sp.length) else none
  else none

/-- Match `for\s+the\s+\w+\s+ended\s+[\w\s,]+\d{4}` at the current
position. -/
def matchForEnded (cs : List Char) : Option (List Char) :=
  match litSp (chars "for") cs with
  | none => none
  | some (p1, r1) =>
    match litSp (chars "the") r1 with
    | none => none
    | some (p2, r2) =>
      let w := r2.takeWhile isWordCh
      if w.length ≥ 1 then
        let r3 := r2.drop w.length
        let sp := r3.takeWhile isSpaceCh
        if sp.length ≥ 1 then
          match litSp (chars "ended") (r3.drop sp.length) with
          | none => none
          | some (p4, r4) =>
            (matchFillYear r4).map (fun t => p1 ++ p2 ++ w ++ sp ++ p4 ++ t)
        else none
      else none

/-- Match `year\s+to\s+date\s+[\w\s,]+\d{4}` at the current position. -/
def matchYearToDate (cs : List Char) : Option (List Char) :=
  match litSp (chars "year") cs with
  | none => none
  | some (p1, r1) =>
    match litSp (chars "to") r1 with
    | none => none
    | some (p2, r2) =>
      match litSp (chars "date") r2 with
      | none => none
      | some (p3, r3) =>
        (matchFillYear r3).map (fun t => p1 ++ p2 ++ p3 ++ t)

/-- One alternative of the period regex at the current position (regex
alternation order). -/
def periodMatchAt (cs : List Char) : Option (List Char) :=
  match matchMonthYear cs with
  | some m => some m
  | none =>
    match matchForEnded cs with
    | some m => some m
    | none => matchYearToDate cs

/-- Python `re.search` for the period regex: leftmost matching position wins. -/
def searchPeriod : List Char → Option (List Char)
  | [] => none
  | c :: rest =>
    match periodMatchAt (c :: rest) with
    | some m => some m
    | none => searchPeriod rest

def companyPrefixes : List (List Char) :=
  [chars "profit", chars "loss", chars "p&l", chars "income"]

/-- The company-name heuristic for one row: non-empty joined text that does
not start with a report-title word. -/
def companyQual (rs : List Char) : Bool :=
  rs ≠ [] && !(startsWithAny (lowerTx rs) companyPrefixes)

/-- Scan loop of `extract_company_and_period`: remembers the first
qualifying company row, and returns as soon as the period regex matches
(the `break`). -/
def ecpLoop (g : Grid) : List Nat → Option (List Char) →
    Option (List Char) × Option (List Char)
  | [], c => (c, none)
  | i :: rest, c =>
    let rs := rowTx g i
    let c := if c = none ∧ companyQual rs then some rs else c
    match searchPeriod (lowerTx rs) with
    | some m => (c, some (pyTitle m))
    | none => ecpLoop g rest c

/-- Lines 7-28 of `analyze_profit_loss.py` (same code at lines 15-44 of
`src/core/analyzer.py`): scan the first `min(10, len(df))` rows. -/
def extract_company_and_period (g : Grid) :
    Option (List Char) × Option (List Char) :=
  ecpLoop g (List.range (min 10 g.length)) none

def basisLoop (g : Grid) : List Nat → List Char
  | [] => chars "Accrual"
  | i :: rest =>
    let rs := rowTxL g i
    if containsTx rs (chars "accrual basis") then chars "Accrual"
    else if containsTx rs (chars "cash basis") then chars "Cash"
    else basisLoop g rest

/-- Lines 30-41 of `analyze_profit_loss.py`: scan the first
`min(15, len(df))` rows for an explicit basis marker; default `Accrual`. -/
def identify_basis_type (g : Grid) : List Char :=
  basisLoop g (List.range (min 15 g.length))

/-! ## Section boundary detection (`find_section_boundaries`,
`analyze_profit_loss.py` lines 43-107) -/

inductive SectionId where
  | tradingIncome
  | costOfSales
  | grossProfit
  | operatingExpenses
  | netProfit
deriving DecidableEq, Repr

/-- Dictionary insertion order of `section_keywords` (the order every
per-row and per-section loop iterates in). -/
def sectionOrder : List SectionId :=
  [SectionId.tradingIncome, SectionId.costOfSales, SectionId.grossProfit,
   SectionId.operatingExpenses, SectionId.netProfit]

/-- The root script's keyword table. -/
def keywords : SectionId → List (List Char)
  | SectionId.tradingIncome =>
    [chars "trading income", chars "revenue", chars "sales", chars "income",
     chars "operating revenue"]
  | SectionId.costOfSales =>
    [chars "cost of sales", chars "cost of goods sold", chars "cogs",
     chars "direct costs"]
  | SectionId.grossProfit => [chars "gross profit", chars "gross income"]
  | SectionId.operatingExpenses =>
    [chars "operating expenses", chars "expenses", chars "overhead",
     chars "operating costs", chars "indirect costs"]
  | SectionId.netProfit =>
    [chars "net profit", chars "net income", chars "profit for the period",
     chars "net earnings"]

/-- Python `any(keyword in row_str for keyword in keywords)`. -/
def kwMatch (sec : SectionId) (rs : List Char) : Bool :=
  (keywords sec).any (fun k => containsTx rs k)

/-- Start/end pair of a ranged section (`{'start': None, 'end': None}`). -/
structure SecRange where
  startRow : Option Int
  endRow : Option Int
deriving DecidableEq, Repr

/-- The `sections` dictionary of `find_section_boundaries`. -/
structure Sections where
  tradingIncome : SecRange
  costOfSales : SecRange
  grossProfit : Option Int
  operatingExpenses : SecRange
  netProfit : Option Int
deriving DecidableEq, Repr

def initSections : Sections :=
  ⟨⟨none, none⟩, ⟨none, none⟩, none, ⟨none, none⟩, none⟩

def getStartRow (s : Sections) : SectionId → Option Int
  | SectionId.tradingIncome => s.tradingIncome.startRow
  | SectionId.costOfSales => s.costOfSales.startRow
  | SectionId.grossProfit => s.grossProfit
  | SectionId.operatingExpenses => s.operatingExpenses.startRow
  | SectionId.netProfit => s.netProfit

/-- Lookup `sections[sec]['end']`; the point sections have no `'end'` entry and the
scan only ever reads the end of the currently open ranged section. -/
def getEndRow (s : Sections) : SectionId → Option Int
  | SectionId.tradingIncome => s.tradingIncome.endRow
  | SectionId.costOfSales => s.costOfSales.endRow
  | SectionId.operatingExpenses => s.operatingExpenses.endRow
  | _ => none

def setStartRow (s : Sections) (v : Int) : SectionId → Sections
  | SectionId.tradingIncome => { s with tradingIncome := ⟨some v, s.tradingIncome.endRow⟩ }
  | SectionId.costOfSales => { s with costOfSales := ⟨some v, s.costOfSales.endRow⟩ }
  | SectionId.operatingExpenses => { s with operatingExpenses := ⟨some v, s.operatingExpenses.endRow⟩ }
  | _ => s

def setEndRow (s : Sections) (v : Int) : SectionId → Sections
  | SectionId.tradingIncome => { s with tradingIncome := ⟨s.tradingIncome.startRow, some v⟩ }
  | SectionId.costOfSales => { s with costOfSales := ⟨s.costOfSales.startRow, some v⟩ }
  | SectionId.operatingExpenses => { s with operatingExpenses := ⟨s.operatingExpenses.startRow, some v⟩ }
  | _ => s

def setPointRow (s : Sections) (v : Int) : SectionId → Sections
  | SectionId.grossProfit => { s with grossProfit := some v }
  | SectionId.netProfit => { s with netProfit := some v }
  | _ => s

def isPoint : SectionId → Bool
  | SectionId.grossProfit => true
  | SectionId.netProfit => true
  | _ => false

/-- Body of the inner `for section, keywords in section_keywords.items()`
loop (lines 70-86): close the previously open section, record start/point
rows, and close a ranged section on a `total` line. -/
def processSection (i : Int) (rs : List Char) (st : Sections × Option SectionId)
    (sec : SectionId) : Sections × Option SectionId :=
  if kwMatch sec rs then
    let (s, cur) := st
    let s :=
      match cur with
      | some c => if c ≠ sec ∧ getEndRow s c = none then setEndRow s (i - 1) c else s
      | none => s
    if isPoint sec then (setPointRow s i sec, cur)
    else
      let (s, cur) :=
        if getStartRow s sec = none then (setStartRow s i sec, some sec) else (s, cur)
      if containsTx rs (chars "total") then (setEndRow s i sec, none) else (s, cur)
  else st

/-- One row of the main scan: test every section in dictionary order. -/
def processRow (g : Grid) (st : Sections × Option SectionId) (i : Nat) :
    Sections × Option SectionId :=
  sectionOrder.foldl (processSection (i : Int) (rowTxL g i)) st

/-- Post-pass row scan (lines 92-105): the first row containing `total`
closes the section at that row; otherwise the first row matching a
different section's keywords closes it one row earlier. -/
def inferEnd (g : Grid) (sec : SectionId) : List Int → Option Int
  | [] => none
  | i :: rest =>
    let rs := rowTxL g (i.toNat)
    if containsTx rs (chars "total") then some i
    else if (sectionOrder.filter (fun s2 => s2 ≠ sec)).any
        (fun s2 => kwMatch s2 rs) then some (i - 1)
    else inferEnd g sec rest

/-- Post-pass (lines 88-105): infer a missing end for each ranged section
with a recorded start. -/
def inferPass (g : Grid) (s : Sections) (sec : SectionId) : Sections :=
  match getStartRow s sec, getEndRow s sec with
  | some st, none =>
    match inferEnd g sec (intRange (st + 1) (g.length : Int)) with
    | some e => setEndRow s e sec
    | none => s
  | _, _ => s

/-- Lines 43-107 of `analyze_profit_loss.py`. -/
def find_section_boundaries (g : Grid) : Sections :=
  let scanned := ((List.range g.length).foldl (processRow g) (initSections, none)).1
  [SectionId.tradingIncome, SectionId.costOfSales,
   SectionId.operatingExpenses].foldl (inferPass g) scanned

/-! ## Account extraction (`extract_accounts`, `analyze_profit_loss.py`
lines 109-191) -/

/-- One extracted line item. -/
structure Account where
  name : List Char
  code : Option (List Char)
  value : Q
deriving DecidableEq, Repr

/-- Column `c` holds a non-`NaN` cell in some row of `df.iloc[s:e+1]`
(`pd.notna(df.iloc[start_idx:end_idx+1, i]).any()`). -/
def colHasData (g : Grid) (s e : Int) (c : Nat) : Bool :=
  (pySliceIdx g.length s (e + 1)).any (fun i => notna (getCell (rowN g i) c))

/-- Lines 115-120: scan columns right-to-left for the first (highest)
column holding any non-empty cell in the row range. -/
def valueCol (g : Grid) (s e : Int) : Option Nat :=
  ((List.range (ncols g)).reverse).findSome?
    (fun c => if colHasData g s e c then some c else none)

/-- Lines 130-131: `pd.isna(row).all() or all(str(x).strip() == '' for x in
row if pd.notna(x))`. -/
def rowBlank (row : List Cell) : Bool :=
  row.all (fun c => !(notna c)) ||
    (row.filter notna).all (fun c => pyStrip (pyStr c) = [])

/-- Keyword guard of line 143: rows announcing another section are
skipped. -/
def crossSectionKws : List (List Char) :=
  [chars "cost of sales", chars "cost of goods sold", chars "cogs",
   chars "direct costs", chars "gross profit", chars "operating expenses"]

/-- The code-token pattern `^[A-Z0-9-]+$`. -/
def codeToken (s : List Char) : Bool :=
  s ≠ [] && s.all (fun c => ('A' ≤ c ∧ c ≤ 'Z') ∨ c.isDigit ∨ c = '-')

/-- Lines 151-155: the first of the first two cells whose stripped text is
a code token. -/
def findCode (row : List Cell) : Option (List Char) :=
  (row.take (min 2 row.length)).findSome? (fun c =>
    if notna c ∧ codeToken (pyStrip (pyStr c)) then some (pyStrip (pyStr c))
    else none)

/-- Lines 157-161: the first non-empty cell whose raw text differs from the
code becomes the (stripped) account name. -/
def findName (row : List Cell) (code : Option (List Char)) : Option (List Char) :=
  row.findSome? (fun c =>
    if notna c ∧ (code = none ∨ some (pyStr c) ≠ code) then
      some (pyStrip (pyStr c))
    else none)

/-- Main loop of `extract_accounts` (lines 126-174) over the rows
`start_idx+1 .. end_idx`, accumulating accounts and the last
successfully parsed total-row value. -/
def accLoop (g : Grid) (vc : Nat) :
    List Int → List Account → Option Q → List Account × Option Q
  | [], accs, extracted => (accs, extracted)
  | i :: rest, accs, extracted =>
    let row := rowI g i
    if rowBlank row then accLoop g vc rest accs extracted
    else
      let rs := lowerTx (rowJoin row)
      if containsTx rs (chars "total") then
        let extracted :=
          match tryFloat (getCell row vc) with
          | some q => some q
          | none => extracted
        accLoop g vc rest accs extracted
      else if crossSectionKws.any (fun k => containsTx rs k) then
        accLoop g vc rest accs extracted
      else
        let code := findCode row
        let name := findName row code
        match tryFloat (getCell row vc) with
        | none => accLoop g vc rest accs extracted
        | some v =>
          match name with
          | some n =>
            if n = [] then accLoop g vc rest accs extracted
            else accLoop g vc rest (accs ++ [⟨n, code, v⟩]) extracted
          | none => accLoop g vc rest accs extracted

/-- Lines 176-178: the calculated total, `None` iff no account was
emitted. -/
def calcTotal (accs : List Account) : Option Q :=
  if accs = [] then none else some (qSum (accs.map Account.value))

/-- Lines 180-189: choose between the extracted and the calculated total.
`0.01` and `0.05` are the Python float literals, idealized as exact
rationals. -/
def reconcileTotals (extracted calculated : Option Q) : Option Q :=
  match extracted with
  | none => calculated
  | some ex =>
    if qLt (qAbs ex) (mkQ 1 100) then calculated
    else
      match calculated with
      | some c =>
        if qLt (qMul (qMax (qAbs ex) (qAbs c)) (mkQ 1 20)) (qAbs (qSub ex c)) then
          some c
        else some ex
      | none => some ex

/-- Lines 109-191 of `analyze_profit_loss.py`: extract the accounts of one
section range and reconcile its total. -/
def extract_accounts (g : Grid) (s e : Int) : List Account × Option Q :=
  match valueCol g s e with
  | none => ([], none)
  | some vc =>
    let (accs, extracted) := accLoop g vc (intRange (s + 1) (e + 1)) [] none
    (accs, reconcileTotals extracted (calcTotal accs))

/-! ## Top-level pipeline (`analyze_profit_loss`, `analyze_profit_loss.py`
lines 193-336).  File loading is out of scope: the pipeline starts from the
grid the spreadsheet decoder produced. -/

/-- Per-section payload stored in `result['sections']`. -/
structure SectionResult where
  accounts : List Account
  total : Option Q
deriving DecidableEq, Repr

/-- The assembled result record.  `grossProfit`/`netProfit` are
`some none` when the key is present with value `None`, `none` when the key
is absent. -/
structure AnalysisResult where
  companyName : Option (List Char)
  period : Option (List Char)
  basisType : List Char
  reportType : List Char
  tradingIncome : Option SectionResult
  costOfSales : Option SectionResult
  grossProfit : Option (Option Q)
  operatingExpenses : Option SectionResult
  netProfit : Option (Option Q)
deriving DecidableEq, Repr

/-- The duck-typed numeric test of lines 240, 314-315: a number cell, or a
text cell passing `replace('.','',1).replace('-','',1).isdigit()`.  (The
stray operator precedence `a and b or c` groups as `(a and b) or c`, which
for non-`NaN` values is what this computes.) -/
def numTestML : Cell → Bool
  | Cell.num _ => true
  | Cell.txt s => pyDigitLike s
  | Cell.empty => false

/-- The gross-profit variant (line 273) misses the `'-'` removal. -/
def numTestNoMinus : Cell → Bool
  | Cell.num _ => true
  | Cell.txt s => pyDigitLikeNoMinus s
  | Cell.empty => false

/-- Right-to-left column scan: the first cell (from the right) passing the
test whose `float(...)` succeeds; a passing cell that fails to convert does
not break the loop. -/
def scanRight (test : Cell → Bool) (row : List Cell) : Option Q :=
  row.reverse.findSome? (fun c => if test c then tryFloat c else none)

/-- Lines 233-245: re-parse the trading-income total from rows in the
effective range whose text contains `total` and an income keyword; the last
such row with a convertible value wins. -/
def tradingTotalScan (g : Grid) (s e : Int) : Option Q :=
  (intRange s (e + 1)).foldl
    (fun acc i =>
      let row := rowI g i
      let rs := lowerTx (rowJoin row)
      if containsTx rs (chars "total") ∧
          [chars "trading income", chars "revenue", chars "sales",
           chars "income"].any (fun k => containsTx rs k) then
        match scanRight numTestML row with
        | some q => some q
        | none => acc
      else acc)
    none

/-- Lines 223-228: clamp trading income's end one row before cost of sales
when the latter starts strictly inside the trading-income range. -/
def effectiveTradingEnd (cosStart : Option Int) (tiS tiE : Int) : Int :=
  match cosStart with
  | some c => if tiS < c ∧ c < tiE then c - 1 else tiE
  | none => tiE

/-- Lines 221-255: the trading-income entry of the result. -/
def tradingSection (g : Grid) (secs : Sections) : Option SectionResult :=
  match secs.tradingIncome.startRow, secs.tradingIncome.endRow with
  | some s, some e =>
    let te := effectiveTradingEnd secs.costOfSales.startRow s e
    let (accs, tot) := extract_accounts g s te
    let tt := tradingTotalScan g s te
    if accs = [] then none
    else
      let pub :=
        match tt with
        | none => tot
        | some q => if qLt (qAbs q) (mkQ 1 100) then tot else some q
      some ⟨accs, pub⟩
  | _, _ => none

/-- Lines 257-264: the cost-of-sales entry publishes the reconciled total
unchanged. -/
def costSection (g : Grid) (secs : Sections) : Option SectionResult :=
  match secs.costOfSales.startRow, secs.costOfSales.endRow with
  | some s, some e =>
    let (accs, tot) := extract_accounts g s e
    if accs = [] then none else some ⟨accs, tot⟩
  | _, _ => none

/-- Lines 294-306: operating expenses re-sum the accounts when the
reconciled total is missing or below `0.01` in magnitude. -/
def opexSection (g : Grid) (secs : Sections) : Option SectionResult :=
  match secs.operatingExpenses.startRow, secs.operatingExpenses.endRow with
  | some s, some e =>
    let (accs, tot) := extract_accounts g s e
    if accs = [] then none
    else
      let pub :=
        match tot with
        | none => some (qSum (accs.map Account.value))
        | some q =>
          if qLt (qAbs q) (mkQ 1 100) then some (qSum (accs.map Account.value))
          else some q
      some ⟨accs, pub⟩
  | _, _ => none

/-- Lines 266-292: the gross-profit entry (key present whenever a
gross-profit row was detected; value may be `None`). -/
def grossProfitValue (g : Grid) (secs : Sections)
    (ti cos : Option SectionResult) : Option (Option Q) :=
  match secs.grossProfit with
  | none => none
  | some r =>
    let ex := scanRight numTestNoMinus (rowI g r)
    let calcd : Option Q :=
      match ti, cos with
      | some t, some c =>
        match t.total, c.total with
        | some a, some b => some (qSub a b)
        | _, _ => none
      | _, _ => none
    some (match ex with
      | none => calcd
      | some q => if qLt (qAbs q) (mkQ 1 100) then calcd else some q)

/-- Lines 308-334: the net-profit entry; the derived value needs the
gross-profit key present with a non-`None` value and an operating-expenses
total. -/
def netProfitValue (g : Grid) (secs : Sections)
    (gp : Option (Option Q)) (oe : Option SectionResult) : Option (Option Q) :=
  match secs.netProfit with
  | none => none
  | some r =>
    let ex := scanRight numTestML (rowI g r)
    let calcd : Option Q :=
      match gp, oe with
      | some gq, some o =>
        match gq, o.total with
        | some a, some b => some (qSub a b)
        | _, _ => none
      | _, _ => none
    some (match ex with
      | none => calcd
      | some q => if qLt (qAbs q) (mkQ 1 100) then calcd else some q)

/-- Lines 193-336 of `analyze_profit_loss.py`: the full pipeline on a
loaded grid. -/
def analyze (g : Grid) : AnalysisResult :=
  let cp := extract_company_and_period g
  let basis := identify_basis_type g
  let secs := find_section_boundaries g
  let rt :=
    if secs.tradingIncome.startRow = none ∨ secs.costOfSales.startRow = none
    then chars "Partial" else chars "Complete"
  let ti := tradingSection g secs
  let cos := costSection g secs
  let gp := grossProfitValue g secs ti cos
  let oe := opexSection g secs
  let np := netProfitValue g secs gp oe
  ⟨cp.1, cp.2, basis, rt, ti, cos, gp, oe, np⟩

/-! ## The refactored variant (`src/core/analyzer.py`): boundary detection
and result-header assembly differ from the root script. -/

/-- The refactored keyword table (lines 88-94 of `src/core/analyzer.py`). -/
def coreKeywords : SectionId → List (List Char)
  | SectionId.tradingIncome =>
    [chars "trading income", chars "revenue", chars "sales", chars "income",
     chars "operating revenue"]
  | SectionId.costOfSales =>
    [chars "cost of sales", chars "cost of goods sold", chars "cogs",
     chars "direct costs"]
  | SectionId.grossProfit =>
    [chars "gross profit", chars "gross income", chars "gross margin"]
  | SectionId.operatingExpenses =>
    [chars "operating expenses", chars "expenses", chars "overhead",
     chars "indirect costs", chars "administrative expenses"]
  | SectionId.netProfit =>
    [chars "net profit", chars "net income", chars "profit for the period",
     chars "net earnings", chars "net operating profit"]

def coreKwMatch (sec : SectionId) (rs : List Char) : Bool :=
  (coreKeywords sec).any (fun k => containsTx rs k)

/-- First pass of `find_section_boundaries` in `src/core/analyzer.py`
(lines 96-108): record first start for ranged sections, last row for point
sections; no state, no `total` handling. -/
def coreProcessSection (i : Int) (rs : List Char) (s : Sections)
    (sec : SectionId) : Sections :=
  if coreKwMatch sec rs then
    if isPoint sec then setPointRow s i sec
    else if getStartRow s sec = none then setStartRow s i sec else s
  else s

def coreProcessRow (g : Grid) (s : Sections) (i : Nat) : Sections :=
  sectionOrder.foldl (coreProcessSection (i : Int) (rowTxL g i)) s

/-- Recorded anchor row of a section: `start` for ranged, `row` for point
sections (the second pass reads whichever key the section has). -/
def coreAnchor (s : Sections) : SectionId → Option Int
  | SectionId.grossProfit => s.grossProfit
  | SectionId.netProfit => s.netProfit
  | sec => getStartRow s sec

/-- Second pass (lines 110-129): the end row is one before the nearest
later section anchor, else `min(start + 20, len(df) - 1)`. -/
def coreEndPass (g : Grid) (s : Sections) (sec : SectionId) : Sections :=
  match getStartRow s sec with
  | none => s
  | some st =>
    let nextStart :=
      (sectionOrder.filter (fun s2 => s2 ≠ sec)).foldl
        (fun acc s2 =>
          match coreAnchor s s2 with
          | some v => if st < v ∧ v < acc then v else acc
          | none => acc)
        (g.length : Int)
    if nextStart < (g.length : Int) then setEndRow s (nextStart - 1) sec
    else setEndRow s (min (st + 20) ((g.length : Int) - 1)) sec

/-- Lines 69-131 of `src/core/analyzer.py`. -/
def coreFindSectionBoundaries (g : Grid) : Sections :=
  let scanned := (List.range g.length).foldl (coreProcessRow g) initSections
  [SectionId.tradingIncome, SectionId.costOfSales,
   SectionId.operatingExpenses].foldl (coreEndPass g) scanned

/-- Python `x if x else default` on an optional string (empty strings are
falsy). -/
def pyOrElse (o : Option (List Char)) (dflt : List Char) : List Char :=
  match o with
  | some s => if s = [] then dflt else s
  | none => dflt

/-- Header fields of the result record built at lines 226-249 of
`src/core/analyzer.py` (companyName, period, basisType, reportType).  The
`reportType` entry is the literal `"Complete"` and is never reassigned
anywhere later in that function. -/
def coreResultHeader (g : Grid) : List Char × List Char × List Char × List Char :=
  let cp := extract_company_and_period g
  (pyOrElse cp.1 (chars "Unknown Company"),
   pyOrElse cp.2 (chars "Unknown Period"),
   identify_basis_type g,
   chars "Complete")

/-! ## Specification-side definition for the value column -/

/-- Numeric-looking text per the spec's words: digits, one optional leading
`'-'`, one optional `'.'`. -/
def specNumLike (s : List Char) : Bool :=
  let body := match s with
    | '-' :: r => r
    | _ => s
  pyIsDigit (removeFirst '.' body)

/-- Modelled from the spec: `lastNumericColumn(rowRange)` of §4.1 -- the
highest column index holding a numeric value or a numeric-looking text
token in some row of the inclusive range.  Stated only to compare with the
source's `valueCol`; the source code (lines 115-120) is the authority. -/
def specLastNumericColumn (g : Grid) (s e : Int) : Option Nat :=
  ((List.range (ncols g)).reverse).findSome?
    (fun c =>
      if (pySliceIdx g.length s (e + 1)).any (fun i =>
          match getCell (rowN g i) c with
          | Cell.num _ => true
          | Cell.txt t => specNumLike t
          | Cell.empty => false) then
        some c
      else none)

/-! ## Financial ratio engine (`src/core/ratios.py`).  The Pydantic
validator `none_to_zero` turns absent optional fields into `0.0`, so the
model is a record of plain numbers. -/

structure FinancialStatement where
  revenue : Q
  cost_of_goods_sold : Q
  operating_expenses : Q
  net_income : Q
  total_assets : Q
  total_equity : Q
  current_assets : Q
  current_liabilities : Q
  cash : Q
  inventory : Q
  accounts_receivable : Q
deriving DecidableEq, Repr

/-- Function `gross_margin_ratio` (lines 33-49): `None` when revenue is zero. -/
def gross_margin_r (fs : FinancialStatement) : Option Q :=
  if fs.revenue = qI 0 then none
  else some (qDiv (qSub fs.revenue fs.cost_of_goods_sold) fs.revenue)

/-- Function `net_margin_ratio` (lines 51-66). -/
def net_margin_r (fs : FinancialStatement) : Option Q :=
  if fs.revenue = qI 0 then none else some (qDiv fs.net_income fs.revenue)

/-- Function `operating_margin_ratio` (lines 68-84). -/
def operating_margin_r (fs : FinancialStatement) : Option Q :=
  if fs.revenue = qI 0 then none
  else some (qDiv (qSub (qSub fs.revenue fs.cost_of_goods_sold) fs.operating_expenses)
    fs.revenue)

/-- Function `return_on_equity` (lines 86-101). -/
def return_on_equity (fs : FinancialStatement) : Option Q :=
  if fs.total_equity = qI 0 then none else some (qDiv fs.net_income fs.total_equity)

/-- Function `return_on_assets` (lines 103-118). -/
def return_on_assets (fs : FinancialStatement) : Option Q :=
  if fs.total_assets = qI 0 then none else some (qDiv fs.net_income fs.total_assets)

/-- Function `current_ratio` (lines 120-135). -/
def current_r (fs : FinancialStatement) : Option Q :=
  if fs.current_liabilities = qI 0 then none
  else some (qDiv fs.current_assets fs.current_liabilities)

/-- Function `quick_ratio` (lines 137-155). -/
def quick_r (fs : FinancialStatement) : Option Q :=
  if fs.current_liabilities = qI 0 then none
  else some (qDiv (qSub fs.current_assets fs.inventory) fs.current_liabilities)

/-- The dictionary returned by `calculate_all_ratios`. -/
structure AllRatios where
  gross_margin : Option Q
  net_margin : Option Q
  operating_margin : Option Q
  return_on_equity : Option Q
  return_on_assets : Option Q
  current_r : Option Q
  quick_r : Option Q
deriving DecidableEq, Repr

def scale100 : Option Q → Option Q
  | none => none
  | some q => some (qMul q (qI 100))

/-- Function `calculate_all_ratios` (lines 201-226): assemble the seven ratios, then
convert the five percentage ratios by multiplying non-`None` entries by
100. -/
def calculate_all_ratios (fs : FinancialStatement) : AllRatios :=
  { gross_margin := scale100 (gross_margin_r fs)
    net_margin := scale100 (net_margin_r fs)
    operating_margin := scale100 (operating_margin_r fs)
    return_on_equity := scale100 (return_on_equity fs)
    return_on_assets := scale100 (return_on_assets fs)
    current_r := current_r fs
    quick_r := quick_r fs }

/-! ## Concrete grids used by counterexamples and witnesses -/

/-- Trading-income section whose `Total Income` row (200) disagrees with
the itemized sum (100) by more than 5%, followed by an identically shaped
cost-of-sales section. -/
def gTI2 : Grid :=
  [[Cell.txt (chars "Trading Income"), Cell.empty],
   [Cell.txt (chars "Consulting"), Cell.num (qI 100)],
   [Cell.txt (chars "Total Income"), Cell.num (qI 200)],
   [Cell.txt (chars "Cost of Sales"), Cell.empty],
   [Cell.txt (chars "Widgets"), Cell.num (qI 100)],
   [Cell.txt (chars "Total Cost of Sales"), Cell.num (qI 200)]]

/-- A single row whose text contains keywords of two sections:
`cost of sales` also contains the trading-income keyword `sales`. -/
def gKw : Grid := [[Cell.txt (chars "cost of sales")]]

/-- A single row containing both the trading-income keyword `income` and
the net-profit keyword `net income`. -/
def gKw2 : Grid := [[Cell.txt (chars "net income")]]

/-- Range whose highest non-empty column (2) holds plain text while the
highest numeric column is 1. -/
def gCol : Grid :=
  [[Cell.txt (chars "Income")],
   [Cell.txt (chars "Sales"), Cell.num (qI 100), Cell.txt (chars "x")]]

/-- Trading income detected at `[5, 20]` with a cost-of-sales keyword row
at index 12 strictly inside it (the spec's boundary-clamp example). -/
def gC4 : Grid :=
  [[], [], [], [], [],
   [Cell.txt (chars "Trading Income"), Cell.empty],
   [Cell.txt (chars "Fees"), Cell.num (qI 10)],
   [], [], [], [], [],
   [Cell.txt (chars "Cost of Sales"), Cell.empty],
   [Cell.txt (chars "Widgets"), Cell.num (qI 5)],
   [], [], [], [], [], [],
   [Cell.txt (chars "Total Income"), Cell.num (qI 100)]]

/-- One text row matching no section, company, period or basis pattern. -/
def gOne : Grid := [[Cell.txt (chars "hello")]]

/-- A grid whose only row starts with `profit`, so that no company name,
no period and no basis marker is found. -/
def gHdr : Grid := [[Cell.txt (chars "Profit and Loss")]]

/-- Rows 0 and 1 fail the company heuristic; row 1 matches the period
regex; the qualifying company row 2 is never reached. -/
def gPer : Grid :=
  [[Cell.txt (chars "Profit and Loss")],
   [Cell.txt (chars "Income statement for march 2024")],
   [Cell.txt (chars "Acme Corp")]]

/-- Section with one account (50) and a total row (52) within the 5%
tolerance band. -/
def gW1 : Grid :=
  [[Cell.txt (chars "Income"), Cell.empty],
   [Cell.txt (chars "Fees"), Cell.num (qI 50)],
   [Cell.txt (chars "Total"), Cell.num (qI 52)]]

/-- Operating-expenses section with one account (80) and a matching total
row (80). -/
def gOpex : Grid :=
  [[Cell.txt (chars "Operating Expenses"), Cell.empty],
   [Cell.txt (chars "Rent"), Cell.num (qI 80)],
   [Cell.txt (chars "Total Expenses"), Cell.num (qI 80)]]

/-- Ratio-engine input with every denominator non-zero. -/
def fsW : FinancialStatement :=
  ⟨qI 2, qI 1, qI 1, qI 1, qI 1, qI 1, qI 4, qI 2, qI 1, qI 1, qI 1⟩

/-- Ratio-engine input with zero revenue. -/
def fsZ : FinancialStatement :=
  ⟨qI 0, qI 1, qI 1, qI 1, qI 1, qI 1, qI 4, qI 2, qI 1, qI 1, qI 1⟩

/-! ## Helper lemmas -/

/-- The descending-column scan returns the greatest index satisfying the
predicate. -/
theorem revRangeFind (p : Nat → Bool) :
    ∀ n : Nat,
      (((List.range n).reverse.findSome?
          (fun c => if p c then some c else none)) = none →
        ∀ c, c < n → p c = false) ∧
      (∀ c, ((List.range n).reverse.findSome?
          (fun c => if p c then some c else none)) = some c →
        p c = true ∧ c < n ∧ ∀ c', c < c' → c' < n → p c' = false) := by
  intro n
  induction n with
  | zero => simp [List.findSome?]
  | succ m ih =>
    have hsplit : (List.range (m + 1)).reverse = m :: (List.range m).reverse := by
      rw [List.range_succ, List.reverse_append]
      simp
    rw [hsplit]
    by_cases hp : p m
    · constructor
      · intro hnone
        simp [List.findSome?, hp] at hnone
      · intro c hc
        simp [List.findSome?, hp] at hc
        subst hc
        refine ⟨hp, Nat.lt_succ_self m, ?_⟩
        intro c' h1 h2
        omega
    · constructor
      · intro hnone c hc
        simp only [List.findSome?, hp, if_false, Bool.false_eq_true] at hnone
        rcases Nat.lt_succ_iff_lt_or_eq.mp hc with h | h
        · exact ih.1 hnone c h
        · subst h
          exact Bool.eq_false_iff.mpr hp
      · intro c hc
        simp only [List.findSome?, hp, if_false, Bool.false_eq_true] at hc
        obtain ⟨h1, h2, h3⟩ := ih.2 c hc
        refine ⟨h1, Nat.lt_succ_of_lt h2, ?_⟩
        intro c' hlt hub
        rcases Nat.lt_succ_iff_lt_or_eq.mp hub with h | h
        · exact h3 c' hlt h
        · subst h
          exact Bool.eq_false_iff.mpr hp

/-- Every keyword list entry is non-empty, so nothing matches an empty
row text. -/
theorem kwMatch_nil : ∀ sec : SectionId, kwMatch sec [] = false := by
  intro sec
  cases sec <;> decide

theorem processSection_nil (i : Int) (st : Sections × Option SectionId)
    (sec : SectionId) : processSection i [] st sec = st := by
  simp [processSection, kwMatch_nil]

/-- A grid whose rows are all empty has width zero. -/
theorem ncols_nil (g : Grid) (h : ∀ r ∈ g, r = []) : ncols g = 0 := by
  induction g with
  | nil => rfl
  | cons r t ih =>
    have hr : r = [] := h r (List.mem_cons_self r t)
    have ht : ∀ r ∈ t, r = [] := fun x hx => h x (List.mem_cons_of_mem r hx)
    simp [ncols, hr] at *
    exact ih ht

/-- In a grid of empty rows every padded row is empty. -/
theorem rowN_nil (g : Grid) (h : ∀ r ∈ g, r = []) : ∀ i, rowN g i = [] := by
  intro i
  have hcol : ncols g = 0 := ncols_nil g h
  have hrow : (g.get? i).getD [] = [] := by
    cases hg : g.get? i with
    | none => rfl
    | some r =>
      have : r ∈ g := List.get?_mem hg
      simp [h r this]
  show (g.get? i).getD [] ++ List.replicate (ncols g - ((g.get? i).getD []).length) Cell.empty = []
  rw [hrow, hcol]
  rfl

/-- In a grid of empty rows every joined row text is empty. -/
theorem rowTx_nil (g : Grid) (h : ∀ r ∈ g, r = []) : ∀ i, rowTx g i = [] := by
  intro i
  show rowJoin (rowN g i) = []
  rw [rowN_nil g h i]
  rfl

theorem ecpLoop_nil_rows (g : Grid) (h : ∀ i, rowTx g i = []) :
    ∀ (l : List Nat) (c : Option (List Char)), ecpLoop g l c = (c, none) := by
  intro l
  induction l with
  | nil => intro c; rfl
  | cons i rest ih =>
    intro c
    simp [ecpLoop, h i, companyQual, searchPeriod, lowerTx]
    exact ih c

theorem basisLoop_nil_rows (g : Grid) (h : ∀ i, rowTx g i = []) :
    ∀ l : List Nat, basisLoop g l = chars "Accrual" := by
  intro l
  induction l with
  | nil => rfl
  | cons i rest ih =>
    have hL : rowTxL g i = [] := by simp [rowTxL, h i, lowerTx]
    have h1 : containsTx [] (chars "accrual basis") = false := by decide
    have h2 : containsTx [] (chars "cash basis") = false := by decide
    simp [basisLoop, hL, h1, h2]
    exact ih

theorem find_section_boundaries_nil (g : Grid) (h : ∀ i, rowTx g i = []) :
    find_section_boundaries g = initSections := by
  have hrow : ∀ st i, processRow g st i = st := by
    intro st i
    have hL : rowTxL g i = [] := by simp [rowTxL, h i, lowerTx]
    simp [processRow, hL]
    show sectionOrder.foldl (processSection (i : Int) []) st = st
    have : ∀ (l : List SectionId) (s : Sections × Option SectionId),
        l.foldl (processSection (i : Int) []) s = s := by
      intro l
      induction l with
      | nil => intro s; rfl
      | cons a t iht =>
        intro s
        rw [List.foldl_cons, processSection_nil]
        exact iht s
    exact this sectionOrder st
  have hscan : (List.range g.length).foldl (processRow g) (initSections, none)
      = (initSections, none) := by
    have : ∀ (l : List Nat) (st : Sections × Option SectionId),
        l.foldl (processRow g) st = st := by
      intro l
      induction l with
      | nil => intro st; rfl
      | cons a t iht =>
        intro st
        rw [List.foldl_cons, hrow]
        exact iht st
    exact this _ _
  show ([SectionId.tradingIncome, SectionId.costOfSales,
      SectionId.operatingExpenses].foldl (inferPass g)
    ((List.range g.length).foldl (processRow g) (initSections, none)).1) = initSections
  rw [hscan]
  rfl

/-- The metadata scan leaves the company slot untouched and finds no period
when no processed row qualifies or matches. -/
theorem ecpLoop_no_match (g : Grid) :
    ∀ (l : List Nat) (c : Option (List Char)),
      (∀ i ∈ l, companyQual (rowTx g i) = false) →
      (∀ i ∈ l, searchPeriod (lowerTx (rowTx g i)) = none) →
      ecpLoop g l c = (c, none) := by
  intro l
  induction l with
  | nil => intro c _ _; rfl
  | cons i rest ih =>
    intro c hq hp
    have hqi := hq i (List.mem_cons_self i rest)
    have hpi := hp i (List.mem_cons_self i rest)
    simp [ecpLoop, hqi, hpi]
    exact ih c (fun j hj => hq j (List.mem_cons_of_mem i hj))
      (fun j hj => hp j (List.mem_cons_of_mem i hj))

/-- The metadata scan stops at the first period match, never reading later
rows: if no row up to the matching one qualifies as a company name, the
company stays unset. -/
theorem ecpLoop_break (g : Grid) :
    ∀ (l1 : List Nat) (i : Nat) (l2 : List Nat) (c : Option (List Char)),
      (∀ k ∈ l1, companyQual (rowTx g k) = false) →
      (∀ k ∈ l1, searchPeriod (lowerTx (rowTx g k)) = none) →
      companyQual (rowTx g i) = false →
      searchPeriod (lowerTx (rowTx g i)) ≠ none →
      (ecpLoop g (l1 ++ i :: l2) c).1 = c := by
  intro l1
  induction l1 with
  | nil =>
    intro i l2 c _ _ hqi hpi
    cases hm : searchPeriod (lowerTx (rowTx g i)) with
    | none => exact absurd hm hpi
    | some m => simp [ecpLoop, hqi, hm]
  | cons k rest ih =>
    intro i l2 c hq hp hqi hpi
    have hqk := hq k (List.mem_cons_self k rest)
    have hpk := hp k (List.mem_cons_self k rest)
    simp only [List.cons_append, ecpLoop, hqk, hpk]
    simp
    exact ih i l2 c (fun j hj => hq j (List.mem_cons_of_mem k hj))
      (fun j hj => hp j (List.mem_cons_of_mem k hj)) hqi hpi

/-- The basis scan returns the default when no processed row carries a
basis marker. -/
theorem basisLoop_no_match (g : Grid) :
    ∀ l : List Nat,
      (∀ i ∈ l, containsTx (rowTxL g i) (chars "accrual basis") = false ∧
        containsTx (rowTxL g i) (chars "cash basis") = false) →
      basisLoop g l = chars "Accrual" := by
  intro l
  induction l with
  | nil => intro _; rfl
  | cons i rest ih =>
    intro hb
    have hbi := hb i (List.mem_cons_self i rest)
    simp [basisLoop, hbi.1, hbi.2]
    exact ih (fun j hj => hb j (List.mem_cons_of_mem i hj))

/-- With a non-`None` calculated total, reconciliation never returns
`None`, and a reconciled value below `0.01` in magnitude can only be the
calculated total itself, because the extracted-total branch requires
magnitude at least `0.01`. -/
theorem reconcileTotals_small (ex : Option Q) (s : Q) :
    reconcileTotals ex (some s) ≠ none ∧
    (∀ q, reconcileTotals ex (some s) = some q →
      qLt (qAbs q) (mkQ 1 100) = true → q = s) := by
  cases ex with
  | none =>
    refine ⟨by simp [reconcileTotals], ?_⟩
    intro q hq _
    simp [reconcileTotals] at hq
    exact hq.symm
  | some e =>
    by_cases h1 : qLt (qAbs e) (mkQ 1 100) = true
    · refine ⟨by simp [reconcileTotals, h1], ?_⟩
      intro q hq _
      simp [reconcileTotals, h1] at hq
      exact hq.symm
    · by_cases h2 : qLt (qMul (qMax (qAbs e) (qAbs s)) (mkQ 1 20))
          (qAbs (qSub e s)) = true
      · refine ⟨by simp [reconcileTotals, h1, h2], ?_⟩
        intro q hq _
        simp [reconcileTotals, h1, h2] at hq
        exact hq.symm
      · refine ⟨by simp [reconcileTotals, h1, h2], ?_⟩
        intro q hq hlt
        simp [reconcileTotals, h1, h2] at hq
        rw [← hq] at hlt
        exact absurd hlt h1

/-! ## Claim C1 -/

/-- C1.  For a section range whose extraction emits at least one account,
the reconciled total returned by `extract_accounts` is the calculated sum
whenever the extracted total-row value is absent or below `0.01` in
magnitude, and whenever extracted and calculated disagree by more than 5%
of the larger magnitude; in every other case it is the extracted value --
never a blend of the two. -/
theorem claim1_reconciled_total (g : Grid) (s e : Int) (vc : Nat)
    (accs : List Account) (ex : Option Q)
    (hvc : valueCol g s e = some vc)
    (hscan : accLoop g vc (intRange (s + 1) (e + 1)) [] none = (accs, ex))
    (hne : accs ≠ []) :
    ((ex = none →
        (extract_accounts g s e).2 = some (qSum (accs.map Account.value))) ∧
      (∀ q, ex = some q → qLt (qAbs q) (mkQ 1 100) = true →
        (extract_accounts g s e).2 = some (qSum (accs.map Account.value))) ∧
      (∀ q, ex = some q → qLt (qAbs q) (mkQ 1 100) = false →
        qLt (qMul (qMax (qAbs q) (qAbs (qSum (accs.map Account.value)))) (mkQ 1 20))
          (qAbs (qSub q (qSum (accs.map Account.value)))) = true →
        (extract_accounts g s e).2 = some (qSum (accs.map Account.value))) ∧
      (∀ q, ex = some q → qLt (qAbs q) (mkQ 1 100) = false →
        qLt (qMul (qMax (qAbs q) (qAbs (qSum (accs.map Account.value)))) (mkQ 1 20))
          (qAbs (qSub q (qSum (accs.map Account.value)))) = false →
        (extract_accounts g s e).2 = some q)) := by
  have hout : extract_accounts g s e =
      (accs, reconcileTotals ex (calcTotal accs)) := by
    simp only [extract_accounts, hvc, hscan]
  have hcalc : calcTotal accs = some (qSum (accs.map Account.value)) := by
    simp [calcTotal, hne]
  refine ⟨?_, ?_, ?_, ?_⟩
  · intro hex
    simp [hout, hex, reconcileTotals, hcalc]
  · intro q hex hlt
    simp [hout, hex, reconcileTotals, hcalc, hlt]
  · intro q hex hlt hdiff
    simp [hout, hex, reconcileTotals, hcalc, hlt, hdiff]
  · intro q hex hlt hdiff
    simp [hout, hex, reconcileTotals, hcalc, hlt, hdiff]

/-- Witness for C1 on a concrete section: one account of 50, total row 52,
within the 5% band, so the extracted value 52 is published. -/
theorem claim1_witness :
    (extract_accounts gW1 0 2).2 = some (qI 52) :=
  (claim1_reconciled_total gW1 0 2 1 [⟨chars "Fees", none, qI 50⟩]
    (some (qI 52)) (by decide) (by decide) (by decide)).2.2.2 (qI 52) rfl
    (by decide) (by decide)

/-! ## Claim C2 -/

/-- C2 counterexample.  On `gTI2` both ranged sections see the same pair of
totals -- extracted 200 on the total row, itemized sum 100, a disagreement
far above 5% -- and `extract_accounts` reconciles both ranges to 100; yet
the published trading-income total is the re-parsed 200 while cost of
sales publishes 100.  The rule is therefore not applied identically, and
the trading-income total is overridden after account extraction, contrary
to the claim. -/
theorem claim2_counterexample :
    extract_accounts gTI2 0 2 =
      ([⟨chars "Consulting", none, qI 100⟩], some (qI 100)) ∧
    extract_accounts gTI2 3 5 =
      ([⟨chars "Widgets", none, qI 100⟩], some (qI 100)) ∧
    (analyze gTI2).tradingIncome =
      some ⟨[⟨chars "Consulting", none, qI 100⟩], some (qI 200)⟩ ∧
    (analyze gTI2).costOfSales =
      some ⟨[⟨chars "Widgets", none, qI 100⟩], some (qI 100)⟩ := by
  refine ⟨by decide, by decide, by decide, by decide⟩

/-- C2 amended.  Cost of sales and operating expenses publish the
reconciliation result of account extraction unchanged (the
operating-expenses re-sum of lines 298-301 can only fire when the
reconciled total IS the itemized sum, so it is value-preserving), but
trading income re-parses a total from `total`-plus-income-keyword rows of
its effective range and publishes that value whenever it is present with
magnitude at least `0.01`, falling back to the extraction result
otherwise. -/
theorem claim2_trading_override (g : Grid) :
    (∀ cs ce : Int,
      (find_section_boundaries g).costOfSales.startRow = some cs →
      (find_section_boundaries g).costOfSales.endRow = some ce →
      (extract_accounts g cs ce).1 ≠ [] →
      costSection g (find_section_boundaries g) =
        some ⟨(extract_accounts g cs ce).1, (extract_accounts g cs ce).2⟩) ∧
    (∀ ts te : Int,
      (find_section_boundaries g).tradingIncome.startRow = some ts →
      (find_section_boundaries g).tradingIncome.endRow = some te →
      (extract_accounts g ts
        (effectiveTradingEnd (find_section_boundaries g).costOfSales.startRow ts te)).1 ≠ [] →
      tradingSection g (find_section_boundaries g) =
        some ⟨(extract_accounts g ts
            (effectiveTradingEnd (find_section_boundaries g).costOfSales.startRow ts te)).1,
          match tradingTotalScan g ts
              (effectiveTradingEnd (find_section_boundaries g).costOfSales.startRow ts te) with
          | none => (extract_accounts g ts
              (effectiveTradingEnd (find_section_boundaries g).costOfSales.startRow ts te)).2
          | some q =>
            if qLt (qAbs q) (mkQ 1 100) then
              (extract_accounts g ts
                (effectiveTradingEnd (find_section_boundaries g).costOfSales.startRow ts te)).2
            else some q⟩) ∧
    (∀ os oe : Int,
      (find_section_boundaries g).operatingExpenses.startRow = some os →
      (find_section_boundaries g).operatingExpenses.endRow = some oe →
      (extract_accounts g os oe).1 ≠ [] →
      opexSection g (find_section_boundaries g) =
        some ⟨(extract_accounts g os oe).1, (extract_accounts g os oe).2⟩) := by
  refine ⟨?_, ?_, ?_⟩
  · intro cs ce hcs hce hne
    rcases hEA : extract_accounts g cs ce with ⟨a, t⟩
    rw [hEA] at hne
    simp only [ne_eq] at hne
    simp only [costSection, hcs, hce, hEA]
    simp [hne]
  · intro ts te hts hte hne
    rcases hEA : extract_accounts g ts
        (effectiveTradingEnd (find_section_boundaries g).costOfSales.startRow ts te) with ⟨a, t⟩
    rw [hEA] at hne
    simp only [ne_eq] at hne
    simp only [tradingSection, hts, hte, hEA]
    simp [hne]
  · intro os oe hos hoe hne
    rcases hvc : valueCol g os oe with _ | vc
    · exfalso
      apply hne
      simp [extract_accounts, hvc]
    · rcases hscan : accLoop g vc (intRange (os + 1) (oe + 1)) [] none with ⟨a, ex⟩
      have hEA : extract_accounts g os oe = (a, reconcileTotals ex (calcTotal a)) := by
        simp only [extract_accounts, hvc, hscan]
      rw [hEA] at hne
      simp only [ne_eq] at hne
      have hane : a ≠ [] := by simpa using hne
      have hct : calcTotal a = some (qSum (a.map Account.value)) := by
        simp [calcTotal, hane]
      simp only [opexSection, hos, hoe, hEA, hct]
      rcases hrt : reconcileTotals ex (some (qSum (a.map Account.value))) with _ | t
      · exact absurd hrt (reconcileTotals_small ex (qSum (a.map Account.value))).1
      · simp only [hane, if_false, hrt]
        by_cases hlt : qLt (qAbs t) (mkQ 1 100) = true
        · have ht := (reconcileTotals_small ex (qSum (a.map Account.value))).2 t hrt hlt
          simp [hlt, ht]
        · simp [hlt]

/-- Witness for the amended C2 on `gTI2` and `gOpex`: cost of sales and
operating expenses publish the reconciled totals (100 and 80), trading
income publishes the re-parsed 200. -/
theorem claim2_witness :
    costSection gTI2 (find_section_boundaries gTI2) =
      some ⟨[⟨chars "Widgets", none, qI 100⟩], some (qI 100)⟩ ∧
    tradingSection gTI2 (find_section_boundaries gTI2) =
      some ⟨[⟨chars "Consulting", none, qI 100⟩], some (qI 200)⟩ ∧
    opexSection gOpex (find_section_boundaries gOpex) =
      some ⟨[⟨chars "Rent", none, qI 80⟩], some (qI 80)⟩ := by
  refine ⟨?_, ?_, ?_⟩
  · have h := (claim2_trading_override gTI2).1 3 5 (by decide) (by decide) (by decide)
    rw [h]
    decide
  · have h := (claim2_trading_override gTI2).2.1 0 5 (by decide) (by decide) (by decide)
    rw [h]
    decide
  · have h := (claim2_trading_override gOpex).2.2 0 2 (by decide) (by decide) (by decide)
    rw [h]
    decide

/-! ## Claim C3 -/

/-- C3 counterexample.  The row `cost of sales` contains keywords of two
sections (the trading-income keyword `sales` and the cost-of-sales keyword
`cost of sales`), and the scan records it as the start of BOTH sections --
there is no at-most-one-section precedence: trading income (the highest
precedence match) records start 0, and cost of sales records start 0 as
well, closing trading income at `-1` on the way. -/
theorem claim3_counterexample :
    (find_section_boundaries gKw).tradingIncome.startRow = some 0 ∧
    (find_section_boundaries gKw).costOfSales.startRow = some 0 ∧
    (find_section_boundaries gKw).tradingIncome.endRow = some (-1) := by
  refine ⟨by decide, by decide, by decide⟩

/-- C3 amended.  Every section whose keywords occur in a row processes that
row, in dictionary order: on the one-row grid `net income`, trading income
(keyword `income`) records the row as its start and net profit (keyword
`net income`) also records it as its point row. -/
theorem claim3_multi_attribution :
    (find_section_boundaries gKw2).tradingIncome.startRow = some 0 ∧
    (find_section_boundaries gKw2).netProfit = some 0 ∧
    (find_section_boundaries gKw2).tradingIncome.endRow = some (-1) := by
  refine ⟨by decide, by decide, by decide⟩

/-! ## Claim C4 -/

/-- C4.  Whenever the detected cost-of-sales start lies strictly between
the trading-income bounds, the effective end used for trading-income
account extraction (the `effectiveTradingEnd` the pipeline feeds to
`extract_accounts` in `tradingSection`) is `costOfSales.start - 1`;
otherwise -- including when cost of sales was not detected -- the detected
trading end is used unchanged. -/
theorem claim4_effective_trading_end (g : Grid) (tiS tiE : Int) :
    (∀ c : Int,
      (find_section_boundaries g).costOfSales.startRow = some c →
      ((tiS < c ∧ c < tiE) →
        effectiveTradingEnd (find_section_boundaries g).costOfSales.startRow tiS tiE = c - 1) ∧
      (¬(tiS < c ∧ c < tiE) →
        effectiveTradingEnd (find_section_boundaries g).costOfSales.startRow tiS tiE = tiE)) ∧
    ((find_section_boundaries g).costOfSales.startRow = none →
      effectiveTradingEnd (find_section_boundaries g).costOfSales.startRow tiS tiE = tiE) := by
  constructor
  · intro c hc
    rw [hc]
    constructor
    · intro hin
      simp [effectiveTradingEnd, hin]
    · intro hout
      simp [effectiveTradingEnd, hout]
  · intro hc
    rw [hc]
    rfl

/-- Witness for C4 on the spec's example: trading income detected at
`[5, 20]`, cost of sales starting at 12 strictly inside, effective end 11. -/
theorem claim4_witness :
    effectiveTradingEnd (find_section_boundaries gC4).costOfSales.startRow 5 20 = 11 :=
  ((claim4_effective_trading_end gC4 5 20).1 12 (by decide)).1 (by decide)

/-! ## Claim C5 -/

/-- C5 counterexample.  The refactored pipeline of `src/core/analyzer.py`
hard-codes `reportType = "Complete"`: on a grid where no cost-of-sales
(or trading-income) start is resolved it still reports `Complete`,
contradicting the claim that every such case yields `Partial`. -/
theorem claim5_counterexample :
    (coreFindSectionBoundaries gOne).tradingIncome.startRow = none ∧
    (coreFindSectionBoundaries gOne).costOfSales.startRow = none ∧
    (coreResultHeader gOne).2.2.2 = chars "Complete" := by
  refine ⟨by decide, by decide, by decide⟩

/-- C5 amended.  In the root pipeline (`analyze_profit_loss.py`) the
report type is `Complete` exactly when both trading income and cost of
sales resolved a start row and `Partial` otherwise, while the
`src/core/analyzer.py` variant always emits `Complete`. -/
theorem claim5_report_type (g : Grid) :
    ((analyze g).reportType = chars "Complete" ↔
      (find_section_boundaries g).tradingIncome.startRow ≠ none ∧
        (find_section_boundaries g).costOfSales.startRow ≠ none) ∧
    ((analyze g).reportType = chars "Partial" ↔
      ¬((find_section_boundaries g).tradingIncome.startRow ≠ none ∧
        (find_section_boundaries g).costOfSales.startRow ≠ none)) ∧
    (coreResultHeader g).2.2.2 = chars "Complete" := by
  have hrt : (analyze g).reportType =
      (if (find_section_boundaries g).tradingIncome.startRow = none ∨
          (find_section_boundaries g).costOfSales.startRow = none
       then chars "Partial" else chars "Complete") := rfl
  refine ⟨?_, ?_, rfl⟩
  · rw [hrt]
    by_cases h1 : (find_section_boundaries g).tradingIncome.startRow = none <;>
      by_cases h2 : (find_section_boundaries g).costOfSales.startRow = none <;>
      simp [h1, h2] <;> decide
  · rw [hrt]
    by_cases h1 : (find_section_boundaries g).tradingIncome.startRow = none <;>
      by_cases h2 : (find_section_boundaries g).costOfSales.startRow = none <;>
      simp [h1, h2] <;> decide

/-! ## Claim C6 -/

/-- C6 counterexample.  On the zero-row grid the root pipeline does return
`Partial` with no sections, but the company and period fields are `None`,
not the literal metadata defaults `Unknown Company` / `Unknown Period` the
spec assigns on absence. -/
theorem claim6_counterexample :
    analyze ([] : Grid) =
      ⟨none, none, chars "Accrual", chars "Partial",
        none, none, none, none, none⟩ ∧
    (analyze ([] : Grid)).companyName ≠ some (chars "Unknown Company") ∧
    (analyze ([] : Grid)).period ≠ some (chars "Unknown Period") := by
  refine ⟨by decide, by decide, by decide⟩

/-- C6 amended.  On every grid with zero rows or zero columns the root
pipeline terminates with `reportType = "Partial"`, no section entries, the
default basis `Accrual`, and `None` (not the literal fallback strings) for
company name and period. -/
theorem claim6_empty_grid (g : Grid) (h : g = [] ∨ ∀ r ∈ g, r = []) :
    analyze g =
      ⟨none, none, chars "Accrual", chars "Partial",
        none, none, none, none, none⟩ := by
  have hrows : ∀ i, rowTx g i = [] := by
    rcases h with h | h
    · intro i; subst h; rfl
    · exact rowTx_nil g h
  have hcp : extract_company_and_period g = (none, none) :=
    ecpLoop_nil_rows g hrows _ _
  have hb : identify_basis_type g = chars "Accrual" :=
    basisLoop_nil_rows g hrows _
  have hfs : find_section_boundaries g = initSections :=
    find_section_boundaries_nil g hrows
  show (⟨(extract_company_and_period g).1, (extract_company_and_period g).2,
    identify_basis_type g, _, _, _, _, _, _⟩ : AnalysisResult) = _
  rw [hcp, hb, hfs]
  rfl

/-- Witness for the amended C6 on a one-row, zero-column grid. -/
theorem claim6_witness :
    analyze ([[]] : Grid) =
      ⟨none, none, chars "Accrual", chars "Partial",
        none, none, none, none, none⟩ :=
  claim6_empty_grid [[]] (Or.inr (by decide))

/-! ## Claim C7 -/

/-- C7 counterexample.  In the range `[0, 1]` of `gCol` the highest column
holding a numeric or numeric-looking value is 1, but the engine picks
column 2, whose only content is the plain text `x`: the value column is
the last non-empty column, not the last numeric-looking one. -/
theorem claim7_counterexample :
    valueCol gCol 0 1 = some 2 ∧
    specLastNumericColumn gCol 0 1 = some 1 ∧
    getCell (rowN gCol 1) 2 = Cell.txt (chars "x") := by
  refine ⟨by decide, by decide, by decide⟩

/-- C7 amended.  The value column chosen for account extraction is the
highest column index holding ANY non-empty cell in some row of the
inclusive range (numeric or not), and it is `none` -- extraction then
yields no accounts and no total -- exactly when every cell of the range is
empty. -/
theorem claim7_value_column (g : Grid) (s e : Int) :
    (∀ c, valueCol g s e = some c →
      colHasData g s e c = true ∧ c < ncols g ∧
        ∀ c', c < c' → c' < ncols g → colHasData g s e c' = false) ∧
    (valueCol g s e = none →
      (∀ c, c < ncols g → colHasData g s e c = false) ∧
      extract_accounts g s e = ([], none)) := by
  have h := revRangeFind (colHasData g s e) (ncols g)
  constructor
  · intro c hc
    obtain ⟨h1, h2, h3⟩ := h.2 c hc
    exact ⟨h1, h2, fun c' hlt hub => h3 c' hlt hub⟩
  · intro hc
    refine ⟨h.1 hc, ?_⟩
    simp [extract_accounts, hc]

/-- Witness for the amended C7 on `gCol`: column 2 is chosen, holds data,
and no higher column in range holds data. -/
theorem claim7_witness :
    colHasData gCol 0 1 2 = true ∧ 2 < ncols gCol ∧
      ∀ c', 2 < c' → c' < ncols gCol → colHasData gCol 0 1 c' = false :=
  (claim7_value_column gCol 0 1).1 2 (by decide)

/-! ## Claim C8 -/

/-- C8 counterexample.  On `gHdr` -- whose only row starts with `profit`,
matches no period pattern and carries no basis marker -- the root pipeline
returns `None` for company name and period rather than the literal
fallback strings; only the basis default `Accrual` appears. -/
theorem claim8_counterexample :
    (∀ i ∈ List.range (min 10 gHdr.length), companyQual (rowTx gHdr i) = false) ∧
    (∀ i ∈ List.range (min 10 gHdr.length),
      searchPeriod (lowerTx (rowTx gHdr i)) = none) ∧
    (∀ i ∈ List.range (min 15 gHdr.length),
      containsTx (rowTxL gHdr i) (chars "accrual basis") = false ∧
      containsTx (rowTxL gHdr i) (chars "cash basis") = false) ∧
    (analyze gHdr).companyName = none ∧
    (analyze gHdr).companyName ≠ some (chars "Unknown Company") ∧
    (analyze gHdr).period = none ∧
    (analyze gHdr).period ≠ some (chars "Unknown Period") ∧
    (analyze gHdr).basisType = chars "Accrual" := by
  refine ⟨by decide, by decide, by decide, by decide, by decide, by decide,
    by decide, by decide⟩

/-- C8 amended.  When no row matches the company heuristic, the period
regex or a basis marker, no error is raised and: the root pipeline leaves
`companyName` and `period` as `None` with basis defaulting to `Accrual`,
while the `src/core/analyzer.py` result header carries the literal
fallbacks `Unknown Company`, `Unknown Period`, `Accrual`. -/
theorem claim8_metadata_fallbacks (g : Grid)
    (hc : ∀ i ∈ List.range (min 10 g.length), companyQual (rowTx g i) = false)
    (hp : ∀ i ∈ List.range (min 10 g.length),
      searchPeriod (lowerTx (rowTx g i)) = none)
    (hb : ∀ i ∈ List.range (min 15 g.length),
      containsTx (rowTxL g i) (chars "accrual basis") = false ∧
      containsTx (rowTxL g i) (chars "cash basis") = false) :
    (analyze g).companyName = none ∧
    (analyze g).period = none ∧
    (analyze g).basisType = chars "Accrual" ∧
    coreResultHeader g =
      (chars "Unknown Company", chars "Unknown Period",
        chars "Accrual", chars "Complete") := by
  have hcp : extract_company_and_period g = (none, none) :=
    ecpLoop_no_match g _ none hc hp
  have hbt : identify_basis_type g = chars "Accrual" :=
    basisLoop_no_match g _ hb
  refine ⟨?_, ?_, ?_, ?_⟩
  · show (extract_company_and_period g).1 = none
    rw [hcp]
  · show (extract_company_and_period g).2 = none
    rw [hcp]
  · show identify_basis_type g = chars "Accrual"
    exact hbt
  · simp [coreResultHeader, hcp, hbt, pyOrElse]

/-- Witness for the amended C8 on `gHdr`. -/
theorem claim8_witness :
    (analyze gHdr).companyName = none ∧
    (analyze gHdr).period = none ∧
    (analyze gHdr).basisType = chars "Accrual" ∧
    coreResultHeader gHdr =
      (chars "Unknown Company", chars "Unknown Period",
        chars "Accrual", chars "Complete") :=
  claim8_metadata_fallbacks gHdr (by decide) (by decide) (by decide)

/-! ## Claim C9 -/

/-- C9.  Each named ratio is `None` exactly when its denominator is zero
(revenue for the margins, equity for ROE, assets for ROA, current
liabilities for the liquidity ratios); otherwise it is the corresponding
quotient, scaled by 100 for the five percentage ratios.  A zero denominator
is handled by the guard, never by an error: the computation is total. -/
theorem claim9_ratio_null_iff (fs : FinancialStatement) :
    ((calculate_all_ratios fs).gross_margin = none ↔ fs.revenue = qI 0) ∧
    (fs.revenue ≠ qI 0 → (calculate_all_ratios fs).gross_margin =
      some (qMul (qDiv (qSub fs.revenue fs.cost_of_goods_sold) fs.revenue) (qI 100))) ∧
    ((calculate_all_ratios fs).net_margin = none ↔ fs.revenue = qI 0) ∧
    (fs.revenue ≠ qI 0 → (calculate_all_ratios fs).net_margin =
      some (qMul (qDiv fs.net_income fs.revenue) (qI 100))) ∧
    ((calculate_all_ratios fs).operating_margin = none ↔ fs.revenue = qI 0) ∧
    (fs.revenue ≠ qI 0 → (calculate_all_ratios fs).operating_margin =
      some (qMul (qDiv (qSub (qSub fs.revenue fs.cost_of_goods_sold)
        fs.operating_expenses) fs.revenue) (qI 100))) ∧
    ((calculate_all_ratios fs).return_on_equity = none ↔ fs.total_equity = qI 0) ∧
    (fs.total_equity ≠ qI 0 → (calculate_all_ratios fs).return_on_equity =
      some (qMul (qDiv fs.net_income fs.total_equity) (qI 100))) ∧
    ((calculate_all_ratios fs).return_on_assets = none ↔ fs.total_assets = qI 0) ∧
    (fs.total_assets ≠ qI 0 → (calculate_all_ratios fs).return_on_assets =
      some (qMul (qDiv fs.net_income fs.total_assets) (qI 100))) ∧
    ((calculate_all_ratios fs).current_r = none ↔ fs.current_liabilities = qI 0) ∧
    (fs.current_liabilities ≠ qI 0 → (calculate_all_ratios fs).current_r =
      some (qDiv fs.current_assets fs.current_liabilities)) ∧
    ((calculate_all_ratios fs).quick_r = none ↔ fs.current_liabilities = qI 0) ∧
    (fs.current_liabilities ≠ qI 0 → (calculate_all_ratios fs).quick_r =
      some (qDiv (qSub fs.current_assets fs.inventory) fs.current_liabilities)) := by
  by_cases hr : fs.revenue = qI 0 <;>
    by_cases he : fs.total_equity = qI 0 <;>
    by_cases ha : fs.total_assets = qI 0 <;>
    by_cases hl : fs.current_liabilities = qI 0 <;>
    simp [calculate_all_ratios, gross_margin_r, net_margin_r,
      operating_margin_r, return_on_equity, return_on_assets, current_r,
      quick_r, scale100, hr, he, ha, hl]

/-- Witness for C9: concrete non-zero denominators produce the quotients,
and zero revenue yields `None` for the gross margin. -/
theorem claim9_witness :
    (calculate_all_ratios fsW).gross_margin =
      some (qMul (qDiv (qSub fsW.revenue fsW.cost_of_goods_sold) fsW.revenue) (qI 100)) ∧
    (calculate_all_ratios fsW).current_r =
      some (qDiv fsW.current_assets fsW.current_liabilities) ∧
    (calculate_all_ratios fsZ).gross_margin = none :=
  ⟨(claim9_ratio_null_iff fsW).2.1 (by decide),
   (claim9_ratio_null_iff fsW).2.2.2.2.2.2.2.2.2.2.2.1 (by decide),
   (claim9_ratio_null_iff fsZ).1.mpr (by decide)⟩

/-! ## Claim C10 -/

/-- Splitting `range n` at a member `i`. -/
theorem range_split (i n : Nat) (h : i < n) :
    List.range n = List.range i ++ i :: List.range' (i + 1) (n - i - 1) := by
  have h1 := List.range'_append 0 i (n - i) 1
  simp only [Nat.zero_add, Nat.one_mul] at h1
  have h2 : n - i + i = n := by omega
  rw [h2] at h1
  rw [List.range_eq_range', List.range_eq_range', ← h1]
  have h3 : n - i = (n - i - 1) + 1 := by omega
  rw [h3, List.range'_succ]
  simp

/-- C10.  A period match terminates the whole metadata scan: when the
period regex first matches at row `i` of the window and no row `0..i`
qualifies as a company name, the extractor returns with the company unset,
never reaching any later qualifying row. -/
theorem claim10_period_break (g : Grid) (i : Nat)
    (hwin : i < min 10 g.length)
    (hpbefore : ∀ k, k < i → searchPeriod (lowerTx (rowTx g k)) = none)
    (hcq : ∀ k, k ≤ i → companyQual (rowTx g k) = false)
    (hp : searchPeriod (lowerTx (rowTx g i)) ≠ none) :
    (extract_company_and_period g).1 = none := by
  show (ecpLoop g (List.range (min 10 g.length)) none).1 = none
  rw [range_split i (min 10 g.length) hwin]
  exact ecpLoop_break g (List.range i) i _ none
    (fun k hk => hcq k (Nat.le_of_lt (List.mem_range.mp hk)))
    (fun k hk => hpbefore k (List.mem_range.mp hk))
    (hcq i (Nat.le_refl i)) hp

/-- Witness for C10: rows 0 and 1 of `gPer` fail the company heuristic, the
period regex first matches at row 1 (`march 2024`), and the qualifying
company row 2 is ignored. -/
theorem claim10_witness : (extract_company_and_period gPer).1 = none :=
  claim10_period_break gPer 1 (by decide) (by decide) (by decide) (by decide)
